import Mathlib

/-!
Verification of the request-building, pagination and typed-decoding layer of a
REST client (the `reference.py` endpoint module together with the generic
`_get` / `_paginate` / `_get_params` / `from_dict` layer it delegates to).
The endpoint module is the source of the path constants and parameter
declarations; the generic layer is modelled from the design specification.
-/

set_option autoImplicit false

/-- A JSON value: the decoded body of an HTTP response. -/
inductive Json where
  | null
  | bool (b : Bool)
  | num (n : Int)
  | str (s : String)
  | arr (elems : List Json)
  | obj (fields : List (String × Json))

/-- First-match lookup of a key in a JSON object's field list. -/
def lookupKey (kvs : List (String × Json)) (k : String) : Option Json :=
  match kvs with
  | [] => none
  | (k', v) :: rest => if k' = k then some v else lookupKey rest k

/-- Extract the value stored under key `k` of a JSON object; `none` on non-objects. -/
def Json.getKey : Json → String → Option Json
  | .obj kvs, k => lookupKey kvs k
  | _, _ => none

/-- Decode every element of a list, failing if any single element fails,
and preserving element order. -/
def mapOpt {α β : Type} (f : α → Option β) : List α → Option (List β)
  | [] => some []
  | a :: l =>
    match f a with
    | none => none
    | some b => (mapOpt f l).map (fun bs => b :: bs)

/-- An HTTP response as delivered by the transport: status code and body. -/
structure HTTPResponse where
  status : Nat
  body : String
deriving DecidableEq

/-- Errors surfaced by this layer: a non-success HTTP status carrying the
status code and body, or a failure to decode a response body. -/
inductive ClientError where
  | httpError (status : Nat) (body : String)
  | decodeError
deriving DecidableEq

/-! ## Parameter Builder

Modelled from the spec: `BaseClient._get_params` is not part of the excerpt;
the spec describes it as converting a method's named arguments into a flat
query-parameter mapping, applying the comparison-suffix convention, omitting
unset values, and merging caller-supplied free-form extra parameters last. -/

/-- A caller-supplied parameter value: a raw string, an integer, a boolean,
a structured date, or the wire string of an enumeration member. -/
inductive PValue where
  | str (s : String)
  | int (n : Int)
  | bool (b : Bool)
  | date (y m d : Nat)
  | enum (s : String)
deriving DecidableEq

/-- Zero-pad a month or day number to two digits. -/
def pad2 (n : Nat) : String :=
  if n < 10 then "0" ++ toString n else toString n

/-- Format a structured date value as YYYY-MM-DD. -/
def formatDate (y m d : Nat) : String :=
  toString y ++ "-" ++ pad2 m ++ "-" ++ pad2 d

/-- Modelled from the spec: normalization of one parameter value to the
string the API expects (dates as YYYY-MM-DD, enums as their wire string). -/
def encodeValue : PValue → String
  | .str s => s
  | .int n => toString n
  | .bool b => if b then "true" else "false"
  | .date y m d => formatDate y m d
  | .enum s => s

/-- Modelled from the spec: the comparison-suffix convention. An argument
name ending in one of the suffixes is encoded as the corresponding
dotted query key; every other name is used as the query key unchanged. -/
def encodeParamName (name : String) : String :=
  if name.takeRight 4 = "_lte" then name.dropRight 4 ++ ".lte"
  else if name.takeRight 4 = "_gte" then name.dropRight 4 ++ ".gte"
  else if name.takeRight 3 = "_lt" then name.dropRight 3 ++ ".lt"
  else if name.takeRight 3 = "_gt" then name.dropRight 3 ++ ".gt"
  else name

/-- First-match lookup in a query-parameter mapping. -/
def qlookup (m : List (String × String)) (k : String) : Option String :=
  match m with
  | [] => none
  | (k', v) :: rest => if k' = k then some v else qlookup rest k

/-- Modelled from the spec: build the computed part of the query mapping from
the declared parameters and the caller-supplied values; a parameter whose
value is unset is omitted entirely. -/
def buildParams (declared : List (String × Option PValue)) : List (String × String) :=
  declared.filterMap (fun p =>
    match p.2 with
    | none => none
    | some v => some (encodeParamName p.1, encodeValue v))

/-- Modelled from the spec: merge the caller-supplied free-form extra
parameters in last; an extra entry overrides any computed entry with the
same key, and extra keys not computed from named arguments are included. -/
def mergeParams (computed extra : List (String × String)) : List (String × String) :=
  computed.filter (fun p => (qlookup extra p.1).isNone) ++ extra

/-- Modelled from the spec: the full Parameter Builder, i.e. the behaviour of
`_get_params` on one call: computed mapping from named arguments, then the
extra-parameters mapping merged last. -/
def getParams (declared : List (String × Option PValue))
    (extra : List (String × String)) : List (String × String) :=
  mergeParams (buildParams declared) extra

/-- Replace the caller-supplied value of the parameter named `n`. -/
def setParam (declared : List (String × Option PValue)) (n : String)
    (v : Option PValue) : List (String × Option PValue) :=
  declared.map (fun p => if p.1 = n then (p.1, v) else p)

/-- The declared optional parameters of `list_tickers` (reference.py lines
66-85), together with one caller-supplied assignment for each. -/
def list_tickers_declared (ticker ticker_lt ticker_lte ticker_gt ticker_gte
    type market exchange cusip cik date active search limit sort order :
    Option PValue) : List (String × Option PValue) :=
  [("ticker", ticker), ("ticker_lt", ticker_lt), ("ticker_lte", ticker_lte),
   ("ticker_gt", ticker_gt), ("ticker_gte", ticker_gte), ("type", type),
   ("market", market), ("exchange", exchange), ("cusip", cusip), ("cik", cik),
   ("date", date), ("active", active), ("search", search), ("limit", limit),
   ("sort", sort), ("order", order)]

/-! ## Typed Decoder

Modelled from the spec: the per-model `from_dict` functions are not part of
the excerpt; the spec describes them as looking up every declared field of
the record type by its documented key, yielding an absent default for absent
keys, ignoring undeclared keys, and failing only when a present field's
value cannot be coerced to its declared type. -/

/-- The declared semantic type of one field of a record type. -/
inductive FieldType where
  | stringT
  | intT
  | boolT
deriving DecidableEq

/-- A decoded field value of a Typed Result Record. -/
inductive FieldValue where
  | stringV (s : String)
  | intV (n : Int)
  | boolV (b : Bool)
deriving DecidableEq

/-- Coerce one present JSON value to its declared semantic type; `none` is a
DecodeError (for example a string where a number is required). -/
def coerceField : FieldType → Json → Option FieldValue
  | .stringT, .str s => some (.stringV s)
  | .intT, .num n => some (.intV n)
  | .boolT, .bool b => some (.boolV b)
  | _, _ => none

/-- Modelled from the spec: decode one declared field from a JSON object's
field list. An absent key yields the absent default (`some none`, never an
error); a present key must coerce to the declared type. -/
def decodeField (kvs : List (String × Json)) (k : String) (ty : FieldType) :
    Option (Option FieldValue) :=
  match lookupKey kvs k with
  | none => some none
  | some v => (coerceField ty v).map some

/-- Modelled from the spec: `from_dict` for a record type given as a schema
of declared field names and types; produces one Typed Result Record, a value
for every declared field and nothing else. -/
def decodeRecord (schema : List (String × FieldType)) :
    Json → Option (List (String × Option FieldValue))
  | .obj kvs =>
      mapOpt (fun p => (decodeField kvs p.1 p.2).map (fun fv => (p.1, fv))) schema
  | _ => none

/-! ## Request Executor

Modelled from the spec: `BaseClient._get` is not part of the excerpt; the
spec describes it as issuing one GET, failing with an HTTPError on a
non-success status, returning the unprocessed response in raw mode, and
otherwise parsing the body as JSON, extracting the value at the result key
(the whole body when the key is empty) and decoding it (once for a single
object, element-wise for an array). -/

/-- The outcome of one single-request endpoint call. -/
inductive GetOutcome (R : Type) where
  | rawOutcome (resp : HTTPResponse)
  | single (r : R)
  | listing (rs : List R)
  | failure (e : ClientError)

/-- Modelled from the spec: the Request Executor, i.e. the behaviour of
`_get` on the response `resp` of its single GET, given the body parser, the
deserializer, the result key and the raw flag. -/
def executeGet {R : Type} (parse : String → Option Json) (d : Json → Option R)
    (resultKey : String) (raw : Bool) (resp : HTTPResponse) : GetOutcome R :=
  if resp.status ≠ 200 then .failure (.httpError resp.status resp.body)
  else if raw then .rawOutcome resp
  else
    match parse resp.body with
    | none => .failure .decodeError
    | some j =>
      match (if resultKey = "" then some j else j.getKey resultKey) with
      | none => .failure .decodeError
      | some (Json.arr xs) =>
        match mapOpt d xs with
        | some rs => .listing rs
        | none => .failure .decodeError
      | some v =>
        match d v with
        | some r => .single r
        | none => .failure .decodeError

/-! ## Paginator

Modelled from the spec: `BaseClient._paginate` is not part of the excerpt;
the spec describes a lazy, forward-only sequence that fetches one page per
FETCHING entry through the Request Executor, hands out the page's decoded
records in array order, follows the envelope's next-page cursor when the
buffer is drained, and is exhausted when no cursor is present. -/

/-- The environment of one paginated listing call: the HTTP transport, the
JSON body parser, the record deserializer and the result key. -/
structure PagEnv (R : Type) where
  server : String → HTTPResponse
  parse : String → Option Json
  deserializer : Json → Option R
  resultKey : String

/-- Extract one Page Envelope from a parsed page body: the result array at
the result key (the whole body when the key is empty) and the optional
next-page cursor stored under the envelope's cursor field. -/
def envelopeOf (parse : String → Option Json) (resultKey : String)
    (body : String) : Option (List Json × Option String) :=
  match parse body with
  | none => none
  | some j =>
    match (if resultKey = "" then some j else j.getKey resultKey) with
    | some (Json.arr xs) =>
      some (xs, match j.getKey "next_url" with
                | some (Json.str u) => some u
                | _ => none)
    | _ => none

/-- Fetch and decode one page at target `t`: an HTTPError on a non-success
status, a DecodeError on an unparsable body, a missing result array or an
undecodable element, and otherwise the page's decoded records in array
order together with the next-page cursor. -/
def fetchPage {R : Type} (env : PagEnv R) (t : String) :
    Except ClientError (List R × Option String) :=
  if (env.server t).status ≠ 200 then
    .error (.httpError (env.server t).status (env.server t).body)
  else
    match envelopeOf env.parse env.resultKey (env.server t).body with
    | none => .error .decodeError
    | some (rjs, next) =>
      match mapOpt env.deserializer rjs with
      | some rs => .ok (rs, next)
      | none => .error .decodeError

/-- How an advancement of the Page Sequence ended: the demand was satisfied,
the sequence was exhausted before the demand was met, a fetch failed, or the
page bound was exceeded. -/
inductive DemandStop where
  | satisfied
  | exhausted
  | failed (e : ClientError)
  | outOfFuel
deriving DecidableEq

/-- Modelled from the spec: demand-driven consumption of the Page Sequence.
`demandPages env fuel k cursor` advances the sequence by `k` records
starting from an empty buffer and the given cursor, fetching a page only
when a record is demanded and the buffer is drained; it returns the records
handed out (in array order, pages in cursor order), the number of HTTP
requests issued, and how the advancement stopped. `fuel` bounds the number
of page fetches. -/
def demandPages {R : Type} (env : PagEnv R) :
    Nat → Nat → Option String → List R × Nat × DemandStop
  | _, 0, _ => ([], 0, .satisfied)
  | _, _ + 1, none => ([], 0, .exhausted)
  | 0, _ + 1, some _ => ([], 0, .outOfFuel)
  | fuel + 1, k + 1, some t =>
    match fetchPage env t with
    | .error e => ([], 1, .failed e)
    | .ok (rs, next) =>
      if k + 1 ≤ rs.length then (rs.take (k + 1), 1, .satisfied)
      else
        let z := demandPages env fuel (k + 1 - rs.length) next
        (rs ++ z.1, z.2.1 + 1, z.2.2)

/-- A chain of pages: each listed target is served as one successfully
fetched page whose decoded records are the listed ones and whose cursor
points at the next listed target, the last page carrying no cursor. -/
def chainServes {R : Type} (env : PagEnv R) : List (String × List R) → Prop
  | [] => True
  | [(t, rs)] => fetchPage env t = .ok (rs, none)
  | (t, rs) :: (t', rs') :: rest =>
    fetchPage env t = .ok (rs, some t') ∧ chainServes env ((t', rs') :: rest)

/-- The outcome of calling a paginated listing method: the first page's raw
response (raw mode), an error, or a fresh lazy Page Sequence that has not
yet issued any request. -/
inductive ListingOutcome (R : Type) where
  | rawResp (resp : HTTPResponse)
  | failure (e : ClientError)
  | sequence (start : String)

/-- Modelled from the spec: the entry point of a paginated listing method.
When raw mode is requested, pagination is bypassed entirely and the first
page's raw response is returned; otherwise a fresh lazy sequence starting at
the initial target is returned, with no request issued yet. -/
def listingCall {R : Type} (env : PagEnv R) (raw : Bool) (t : String) :
    ListingOutcome R :=
  if raw then
    if (env.server t).status ≠ 200 then
      .failure (.httpError (env.server t).status (env.server t).body)
    else .rawResp (env.server t)
  else .sequence t

/-! ## Endpoint constants from reference.py -/

/-- Path constant of `list_tickers` (reference.py line 110). -/
def list_tickers_path : String := "/v3/reference/tickers"

/-- Path constant of `list_splits` (reference.py line 249). -/
def list_splits_path : String := "/v3/reference/splits"

/-- Path constant of `list_conditions` (reference.py line 375). -/
def list_conditions_path : String := "/v3/reference/conditions"

/-- Path constant of `get_market_holidays` (reference.py line 38); this
endpoint passes the empty result key, treating the whole body as the result
array. -/
def get_market_holidays_path : String := "/v1/marketstatus/upcoming"

/-- Python renders `None` as the string "None" when interpolated into an
f-string; any other argument string is interpolated as-is, with no
validation or escaping. -/
def pyInterpolate : Option String → String
  | none => "None"
  | some s => s

/-- URL construction of `get_ticker_details` (reference.py line 135): the
f-string interpolating the optional ticker argument into the path. -/
def get_ticker_details_url (ticker : Option String) : String :=
  "/v3/reference/tickers/" ++ pyInterpolate ticker

/-- A sample caller-supplied assignment for the parameters of
`list_tickers`: market, active and limit are set, everything else unset. -/
def sampleTickersCall : List (String × Option PValue) :=
  list_tickers_declared none none none none none none (some (.enum "stocks"))
    none none none none (some (.bool true)) none (some (.int 10)) none none

/-! ## Lemmas about the Parameter Builder -/

lemma qlookup_buildParams_none (declared : List (String × Option PValue))
    (K : String) (h : ∀ p ∈ declared, p.2 ≠ none → encodeParamName p.1 ≠ K) :
    qlookup (buildParams declared) K = none := by
  induction declared with
  | nil => rfl
  | cons p rest ih =>
    have hrest : ∀ q ∈ rest, q.2 ≠ none → encodeParamName q.1 ≠ K := by
      intro q hq
      exact h q (List.mem_cons_of_mem _ hq)
    cases hp : p.2 with
    | none =>
      have hb : buildParams (p :: rest) = buildParams rest := by
        simp [buildParams, List.filterMap_cons, hp]
      rw [hb]
      exact ih hrest
    | some v =>
      have hne : encodeParamName p.1 ≠ K := by
        apply h p (List.mem_cons_self _ _)
        simp [hp]
      have hb : buildParams (p :: rest) =
          (encodeParamName p.1, encodeValue v) :: buildParams rest := by
        simp [buildParams, List.filterMap_cons, hp]
      rw [hb]
      simp only [qlookup]
      rw [if_neg hne]
      exact ih hrest

lemma qlookup_merge_extra (c e : List (String × String)) (k v : String)
    (h : qlookup e k = some v) : qlookup (mergeParams c e) k = some v := by
  induction c with
  | nil => simpa [mergeParams] using h
  | cons p c' ih =>
    cases hp : (qlookup e p.1).isNone with
    | true =>
      have hpk : p.1 ≠ k := by
        intro hk
        rw [hk, h] at hp
        simp at hp
      have hm : mergeParams (p :: c') e = p :: mergeParams c' e := by
        simp [mergeParams, List.filter_cons, hp]
      rw [hm]
      simp only [qlookup]
      rw [if_neg hpk]
      exact ih
    | false =>
      have hm : mergeParams (p :: c') e = mergeParams c' e := by
        simp [mergeParams, List.filter_cons, hp]
      rw [hm]
      exact ih

lemma qlookup_merge_computed (c e : List (String × String)) (k : String)
    (h : qlookup e k = none) : qlookup (mergeParams c e) k = qlookup c k := by
  induction c with
  | nil => simpa [mergeParams] using h
  | cons p c' ih =>
    cases hp : (qlookup e p.1).isNone with
    | true =>
      have hm : mergeParams (p :: c') e = p :: mergeParams c' e := by
        simp [mergeParams, List.filter_cons, hp]
      rw [hm]
      simp only [qlookup]
      by_cases hpk : p.1 = k
      · rw [if_pos hpk, if_pos hpk]
      · rw [if_neg hpk, if_neg hpk]
        exact ih
    | false =>
      have hpk : p.1 ≠ k := by
        intro hk
        rw [hk, h] at hp
        simp at hp
      have hm : mergeParams (p :: c') e = mergeParams c' e := by
        simp [mergeParams, List.filter_cons, hp]
      rw [hm]
      simp only [qlookup]
      rw [if_neg hpk]
      exact ih

lemma buildParams_setParam (declared : List (String × Option PValue))
    (n : String) (v : Option PValue) (k : String)
    (hk : k ≠ encodeParamName n) :
    qlookup (buildParams (setParam declared n v)) k =
      qlookup (buildParams declared) k := by
  induction declared with
  | nil => rfl
  | cons p rest ih =>
    have hs : setParam (p :: rest) n v =
        (if p.1 = n then (p.1, v) else p) :: setParam rest n v := by
      simp [setParam]
    rw [hs]
    by_cases hpn : p.1 = n
    · rw [if_pos hpn]
      have hkey : encodeParamName p.1 ≠ k := by
        rw [hpn]
        exact fun hc => hk hc.symm
      have hl : qlookup (buildParams ((p.1, v) :: setParam rest n v)) k =
          qlookup (buildParams (setParam rest n v)) k := by
        cases v with
        | none => simp [buildParams, List.filterMap_cons]
        | some w =>
          simp only [buildParams, List.filterMap_cons]
          simp only [qlookup]
          rw [if_neg hkey]
      have hr : qlookup (buildParams (p :: rest)) k =
          qlookup (buildParams rest) k := by
        cases hp2 : p.2 with
        | none => simp [buildParams, List.filterMap_cons, hp2]
        | some w =>
          simp only [buildParams, List.filterMap_cons, hp2]
          simp only [qlookup]
          rw [if_neg hkey]
      rw [hl, hr]
      exact ih
    · rw [if_neg hpn]
      cases hp2 : p.2 with
      | none =>
        simp only [buildParams, List.filterMap_cons, hp2]
        exact ih
      | some w =>
        simp only [buildParams, List.filterMap_cons, hp2]
        simp only [qlookup]
        by_cases hpk : encodeParamName p.1 = k
        · rw [if_pos hpk, if_pos hpk]
        · rw [if_neg hpk, if_neg hpk]
          exact ih

/-! ## Claims about the Parameter Builder -/

/-- Claim C4: the query-parameter mapping built by the Parameter Builder
contains no key for any declared optional parameter the caller left unset;
an unset parameter is omitted entirely and never appears as an empty or
null query value. -/
theorem unset_params_omitted (declared : List (String × Option PValue))
    (extra : List (String × String)) (n : String)
    (hunset : (n, (none : Option PValue)) ∈ declared)
    (hothers : ∀ p ∈ declared, p.2 ≠ none → encodeParamName p.1 ≠ encodeParamName n)
    (hextra : qlookup extra (encodeParamName n) = none) :
    qlookup (getParams declared extra) (encodeParamName n) = none := by
  have hcomputed : qlookup (buildParams declared) (encodeParamName n) = none :=
    qlookup_buildParams_none declared _ hothers
  have hmerge := qlookup_merge_computed (buildParams declared) extra
    (encodeParamName n) hextra
  rw [getParams, hmerge, hcomputed]

/-- Witness for C4: in a `list_tickers` call that sets only `ticker`,
leaving `ticker_lt` unset, the built query mapping has no `ticker.lt`
key. -/
theorem unset_params_omitted_eval :
    qlookup (getParams (list_tickers_declared (some (.str "AAPL")) none none
      none none none none none none none none none none none none none)
      [("order", "asc")]) (encodeParamName "ticker_lt") = none :=
  unset_params_omitted _ _ "ticker_lt" (by decide) (by decide) (by decide)

/-- Claim C5: every comparison-suffix family member is encoded as its own
independent dotted query key (shown for every family declared in
reference.py), and setting one member changes no other entry of the built
mapping — in particular setting `ticker_lt` leaves the `ticker` entry
unchanged. -/
theorem comparison_suffix_independent :
    (encodeParamName "ticker" = "ticker" ∧
     encodeParamName "ticker_lt" = "ticker.lt" ∧
     encodeParamName "ticker_lte" = "ticker.lte" ∧
     encodeParamName "ticker_gt" = "ticker.gt" ∧
     encodeParamName "ticker_gte" = "ticker.gte" ∧
     encodeParamName "published_utc" = "published_utc" ∧
     encodeParamName "published_utc_lt" = "published_utc.lt" ∧
     encodeParamName "published_utc_lte" = "published_utc.lte" ∧
     encodeParamName "published_utc_gt" = "published_utc.gt" ∧
     encodeParamName "published_utc_gte" = "published_utc.gte" ∧
     encodeParamName "execution_date" = "execution_date" ∧
     encodeParamName "execution_date_lt" = "execution_date.lt" ∧
     encodeParamName "execution_date_lte" = "execution_date.lte" ∧
     encodeParamName "execution_date_gt" = "execution_date.gt" ∧
     encodeParamName "execution_date_gte" = "execution_date.gte" ∧
     encodeParamName "ex_dividend_date" = "ex_dividend_date" ∧
     encodeParamName "ex_dividend_date_lt" = "ex_dividend_date.lt" ∧
     encodeParamName "ex_dividend_date_lte" = "ex_dividend_date.lte" ∧
     encodeParamName "ex_dividend_date_gt" = "ex_dividend_date.gt" ∧
     encodeParamName "ex_dividend_date_gte" = "ex_dividend_date.gte" ∧
     encodeParamName "record_date" = "record_date" ∧
     encodeParamName "record_date_lt" = "record_date.lt" ∧
     encodeParamName "record_date_lte" = "record_date.lte" ∧
     encodeParamName "record_date_gt" = "record_date.gt" ∧
     encodeParamName "record_date_gte" = "record_date.gte" ∧
     encodeParamName "declaration_date" = "declaration_date" ∧
     encodeParamName "declaration_date_lt" = "declaration_date.lt" ∧
     encodeParamName "declaration_date_lte" = "declaration_date.lte" ∧
     encodeParamName "declaration_date_gt" = "declaration_date.gt" ∧
     encodeParamName "declaration_date_gte" = "declaration_date.gte" ∧
     encodeParamName "pay_date" = "pay_date" ∧
     encodeParamName "pay_date_lt" = "pay_date.lt" ∧
     encodeParamName "pay_date_lte" = "pay_date.lte" ∧
     encodeParamName "pay_date_gt" = "pay_date.gt" ∧
     encodeParamName "pay_date_gte" = "pay_date.gte" ∧
     encodeParamName "cash_amount" = "cash_amount" ∧
     encodeParamName "cash_amount_lt" = "cash_amount.lt" ∧
     encodeParamName "cash_amount_lte" = "cash_amount.lte" ∧
     encodeParamName "cash_amount_gt" = "cash_amount.gt" ∧
     encodeParamName "cash_amount_gte" = "cash_amount.gte") ∧
    (∀ (declared : List (String × Option PValue)) (n : String) (v : PValue)
       (k : String), k ≠ encodeParamName n →
       qlookup (buildParams (setParam declared n (some v))) k =
         qlookup (buildParams declared) k) ∧
    (∀ (declared : List (String × Option PValue)) (v : PValue),
       qlookup (buildParams (setParam declared "ticker_lt" (some v))) "ticker" =
         qlookup (buildParams declared) "ticker") := by
  refine ⟨by decide, ?_, ?_⟩
  · intro declared n v k hk
    exact buildParams_setParam declared n (some v) k hk
  · intro declared v
    exact buildParams_setParam declared "ticker_lt" (some v) "ticker" (by decide)

/-- Witness for C5: on a concrete `list_tickers` call, setting `ticker_lt`
leaves the mapping's `ticker` entry unchanged. -/
theorem comparison_suffix_independent_eval :
    qlookup (buildParams (setParam (list_tickers_declared (some (.str "A"))
      none none none none none none none none none none none none none none
      none) "ticker_lt" (some (.str "B")))) "ticker" =
    qlookup (buildParams (list_tickers_declared (some (.str "A")) none none
      none none none none none none none none none none none none none))
      "ticker" :=
  comparison_suffix_independent.2.1 _ "ticker_lt" (.str "B") "ticker" (by decide)

/-- Claim C6: the caller-supplied extra-parameters mapping is merged into
the built query mapping last; a key present in the extra mapping carries the
extra value in the final mapping (overriding any computed value), and keys
not present in the extra mapping keep their computed value. -/
theorem extra_params_merge_last (declared : List (String × Option PValue))
    (extra : List (String × String)) (k : String) :
    (∀ v, qlookup extra k = some v →
       qlookup (getParams declared extra) k = some v) ∧
    (qlookup extra k = none →
       qlookup (getParams declared extra) k = qlookup (buildParams declared) k) := by
  constructor
  · intro v h
    exact qlookup_merge_extra (buildParams declared) extra k v h
  · intro h
    exact qlookup_merge_computed (buildParams declared) extra k h

/-- Witness for C6: the extra entry for `limit` overrides the computed
limit of the sample call, and the computed `market` entry survives. -/
theorem extra_params_merge_last_eval :
    qlookup (getParams sampleTickersCall [("limit", "50")]) "limit" = some "50" ∧
    qlookup (getParams sampleTickersCall [("limit", "50")]) "market" =
      qlookup (buildParams sampleTickersCall) "market" :=
  ⟨(extra_params_merge_last sampleTickersCall [("limit", "50")] "limit").1 "50" rfl,
   (extra_params_merge_last sampleTickersCall [("limit", "50")] "market").2 rfl⟩

/-! ## Lemmas about the Typed Decoder -/

lemma lookupKey_ignore (pre post : List (String × Json)) (k k' : String)
    (v : Json) (h : k' ≠ k) :
    lookupKey (pre ++ (k, v) :: post) k' = lookupKey (pre ++ post) k' := by
  induction pre with
  | nil =>
    simp only [List.nil_append, lookupKey]
    rw [if_neg (fun hc => h hc.symm)]
  | cons q pre' ih =>
    obtain ⟨qk, qv⟩ := q
    simp only [List.cons_append, lookupKey]
    by_cases hq : qk = k'
    · rw [if_pos hq, if_pos hq]
    · rw [if_neg hq, if_neg hq]
      exact ih

lemma mapOpt_congr {α β : Type} (f g : α → Option β) (l : List α)
    (h : ∀ a ∈ l, f a = g a) : mapOpt f l = mapOpt g l := by
  induction l with
  | nil => rfl
  | cons a l ih =>
    simp only [mapOpt]
    rw [h a (List.mem_cons_self _ _),
      ih (fun b hb => h b (List.mem_cons_of_mem _ hb))]

/-! ## Claim about the Typed Decoder -/

/-- Claim C7: a declared field whose key is absent from the JSON object
decodes to the absent default without error; an object carrying none of the
declared keys still decodes, every field absent; and inserting an
undeclared key anywhere in a JSON object leaves the decoding of the whole
record unchanged (so decoding never fails because of extra keys and the
declared field values are untouched). -/
theorem decoder_tolerant :
    (∀ (kvs : List (String × Json)) (k : String) (ty : FieldType),
       lookupKey kvs k = none → decodeField kvs k ty = some none) ∧
    (∀ schema : List (String × FieldType),
       decodeRecord schema (.obj []) =
         some (schema.map (fun p => (p.1, none)))) ∧
    (∀ (schema : List (String × FieldType)) (pre post : List (String × Json))
       (k : String) (v : Json), k ∉ schema.map Prod.fst →
       decodeRecord schema (.obj (pre ++ (k, v) :: post)) =
         decodeRecord schema (.obj (pre ++ post))) := by
  refine ⟨?_, ?_, ?_⟩
  · intro kvs k ty h
    simp [decodeField, h]
  · intro schema
    induction schema with
    | nil => rfl
    | cons p s ih =>
      simp only [decodeRecord] at ih ⊢
      have hf : Option.map (fun fv => (p.1, fv)) (decodeField [] p.1 p.2) =
          some (p.1, (none : Option FieldValue)) := rfl
      simp only [mapOpt, hf, ih, Option.map_some, List.map_cons]
      rfl
  · intro schema pre post k v hk
    simp only [decodeRecord]
    apply mapOpt_congr
    intro p hp
    have hpk : p.1 ≠ k := by
      intro hc
      exact hk (hc ▸ List.mem_map_of_mem Prod.fst hp)
    have hlk : lookupKey (pre ++ (k, v) :: post) p.1 =
        lookupKey (pre ++ post) p.1 := lookupKey_ignore pre post k p.1 v hpk
    simp only [decodeField, hlk]

/-- Witness for C7: decoding a sample ticker object succeeds with the
`active` field absent, and inserting the unknown key `bonus` changes
nothing. -/
theorem decoder_tolerant_eval :
    decodeField [("name", Json.str "Apple")] "active" FieldType.boolT =
      some none ∧
    decodeRecord [("ticker", FieldType.stringT), ("active", FieldType.boolT)]
        (Json.obj ([("ticker", Json.str "AAPL")] ++ ("bonus", Json.num 9) :: [])) =
      decodeRecord [("ticker", FieldType.stringT), ("active", FieldType.boolT)]
        (Json.obj ([("ticker", Json.str "AAPL")] ++ [])) :=
  ⟨decoder_tolerant.1 [("name", Json.str "Apple")] "active" FieldType.boolT rfl,
   decoder_tolerant.2.2 [("ticker", FieldType.stringT),
     ("active", FieldType.boolT)] [("ticker", Json.str "AAPL")] [] "bonus"
     (Json.num 9) (by decide)⟩

/-! ## Claims about the Request Executor -/

/-- Claim C8: in non-raw mode the Request Executor extracts the value at the
result key — the whole body when the key is empty, as `get_market_holidays`
requests against a bare top-level array — and decodes a JSON array
element-wise into a sequence of records in element order, and a single JSON
object (as for `get_ticker_details` under the key "results") into exactly
one record. -/
theorem result_key_extraction (R : Type) :
    (∀ (parse : String → Option Json) (d : Json → Option R)
       (resp : HTTPResponse) (xs : List Json) (rs : List R),
       resp.status = 200 → parse resp.body = some (.arr xs) →
       mapOpt d xs = some rs →
       executeGet parse d "" false resp = .listing rs) ∧
    (∀ (parse : String → Option Json) (d : Json → Option R)
       (resp : HTTPResponse) (j : Json) (fs : List (String × Json)) (r : R),
       resp.status = 200 → parse resp.body = some j →
       j.getKey "results" = some (.obj fs) → d (.obj fs) = some r →
       executeGet parse d "results" false resp = .single r) := by
  constructor
  · intro parse d resp xs rs h200 hparse hdec
    simp [executeGet, h200, hparse, hdec]
  · intro parse d resp j fs r h200 hparse hkey hdec
    simp [executeGet, h200, hparse, hkey, hdec]

/-- Sample body parser: one bare-array body (as the market-holidays endpoint
receives) and one results-wrapped single-object body (as the ticker-details
endpoint receives). -/
def parseSample : String → Option Json := fun b =>
  if b = "holidaybody" then some (.arr [Json.str "New Year"])
  else if b = "detailsbody" then
    some (.obj [("results", Json.obj [("ticker", Json.str "AAPL")])])
  else none

/-- Witness for C8: the bare array decodes to a listing, the wrapped object
to a single record. -/
theorem result_key_extraction_eval :
    executeGet parseSample some "" false ⟨200, "holidaybody"⟩ =
      .listing [Json.str "New Year"] ∧
    executeGet parseSample some "results" false ⟨200, "detailsbody"⟩ =
      .single (Json.obj [("ticker", Json.str "AAPL")]) :=
  ⟨(result_key_extraction Json).1 parseSample some ⟨200, "holidaybody"⟩
     [Json.str "New Year"] [Json.str "New Year"] rfl rfl rfl,
   (result_key_extraction Json).2 parseSample some ⟨200, "detailsbody"⟩
     (Json.obj [("results", Json.obj [("ticker", Json.str "AAPL")])])
     [("ticker", Json.str "AAPL")] (Json.obj [("ticker", Json.str "AAPL")])
     rfl rfl rfl rfl⟩

/-- Claim C3: with the raw flag set, a single-request call returns the
unprocessed response and performs no JSON decoding for any parser — in
particular no DecodeError, whatever the body — and a paginated listing call
returns the first page's raw response with no sequence and no further
request: its outcome depends only on the first page's response. -/
theorem raw_mode_bypass (R : Type) :
    (∀ (parse : String → Option Json) (d : Json → Option R) (key : String)
       (resp : HTTPResponse), resp.status = 200 →
       executeGet parse d key true resp = .rawOutcome resp) ∧
    (∀ (env : PagEnv R) (t : String), (env.server t).status = 200 →
       listingCall env true t = .rawResp (env.server t)) ∧
    (∀ (env env' : PagEnv R) (t : String), env.server t = env'.server t →
       listingCall env true t = listingCall env' true t) := by
  refine ⟨?_, ?_, ?_⟩
  · intro parse d key resp h
    simp [executeGet, h]
  · intro env t h
    simp [listingCall, h]
  · intro env env' t h
    simp [listingCall, h]

/-- A listing environment whose every body is unparsable JSON. -/
def rawEnv : PagEnv Json where
  server := fun _ => ⟨200, "this is not json"⟩
  parse := fun _ => none
  deserializer := some
  resultKey := "results"

/-- Witness for C3: with an unparsable body and a parser that rejects
everything, raw mode still returns the unprocessed response. -/
theorem raw_mode_bypass_eval :
    executeGet (fun _ => none) (some : Json → Option Json) "results" true
      ⟨200, "this is not json"⟩ = .rawOutcome ⟨200, "this is not json"⟩ ∧
    listingCall rawEnv true list_tickers_path =
      .rawResp ⟨200, "this is not json"⟩ :=
  ⟨(raw_mode_bypass Json).1 (fun _ => none) some "results"
     ⟨200, "this is not json"⟩ rfl,
   (raw_mode_bypass Json).2.1 rawEnv list_tickers_path rfl⟩

/-- Claim C10: `get_ticker_details` interpolates its ticker argument
directly into the request path with no validation or escaping; the default
call with an omitted ticker produces the literal path
"/v3/reference/tickers/None", and any supplied string is appended as-is. -/
theorem ticker_details_path_interpolation :
    get_ticker_details_url none = "/v3/reference/tickers/None" ∧
    (∀ s : String, get_ticker_details_url (some s) =
      "/v3/reference/tickers/" ++ s) :=
  ⟨rfl, fun _ => rfl⟩

/-! ## Lemmas about the Paginator -/

lemma demandPages_none {R : Type} (env : PagEnv R) (fuel k : Nat)
    (hk : 1 ≤ k) : demandPages env fuel k none = ([], 0, .exhausted) := by
  cases k with
  | zero => omega
  | succ k => simp [demandPages]

lemma demandPages_first_page {R : Type} (env : PagEnv R) (t : String)
    (rs : List R) (next : Option String) (fuel j : Nat)
    (hfetch : fetchPage env t = .ok (rs, next)) (hj1 : 1 ≤ j)
    (hj2 : j ≤ rs.length) :
    demandPages env (fuel + 1) j (some t) = (rs.take j, 1, .satisfied) := by
  cases j with
  | zero => omega
  | succ k =>
    simp only [demandPages, hfetch]
    rw [if_pos hj2]

lemma demandPages_fail {R : Type} (env : PagEnv R) (t : String)
    (e : ClientError) (fuel k : Nat) (hfetch : fetchPage env t = .error e)
    (hk : 1 ≤ k) :
    demandPages env (fuel + 1) k (some t) = ([], 1, .failed e) := by
  cases k with
  | zero => omega
  | succ k => simp [demandPages, hfetch]

/-! ## Claims about the Paginator -/

/-- Claim C1: for every finite chain of pages, each carrying a next-page
cursor except the last, fully consuming the lazy sequence yields exactly the
concatenation of all pages' result arrays — in order within each page,
pages in cursor order, one request per page, nothing duplicated, nothing
omitted — and then reports exhaustion. -/
theorem paginate_exhaustive (R : Type) (env : PagEnv R) (t : String)
    (rs : List R) (rest : List (String × List R)) (fuel k : Nat)
    (hchain : chainServes env ((t, rs) :: rest))
    (hfuel : rest.length + 1 ≤ fuel)
    (hk : (((t, rs) :: rest).map Prod.snd).flatten.length < k) :
    demandPages env fuel k (some t) =
      ((((t, rs) :: rest).map Prod.snd).flatten, rest.length + 1, .exhausted) := by
  induction rest generalizing t rs fuel k with
  | nil =>
    have hch : fetchPage env t = .ok (rs, none) := hchain
    have hk' : rs.length < k := by simpa using hk
    obtain ⟨f, rfl⟩ : ∃ f, fuel = f + 1 := ⟨fuel - 1, by omega⟩
    obtain ⟨m, rfl⟩ : ∃ m, k = m + 1 := ⟨k - 1, by omega⟩
    simp only [demandPages, hch]
    rw [if_neg (by omega)]
    rw [demandPages_none env f (m + 1 - rs.length) (by omega)]
    simp
  | cons q rest' ih =>
    obtain ⟨t', rs'⟩ := q
    obtain ⟨hfetch, hchain'⟩ := hchain
    have hk' : rs.length + (((t', rs') :: rest').map Prod.snd).flatten.length
        < k := by
      simpa using hk
    obtain ⟨f, rfl⟩ : ∃ f, fuel = f + 1 := ⟨fuel - 1, by omega⟩
    obtain ⟨m, rfl⟩ : ∃ m, k = m + 1 := ⟨k - 1, by omega⟩
    simp only [demandPages, hfetch]
    rw [if_neg (by omega)]
    rw [ih t' rs' f (m + 1 - rs.length) hchain' (by simp at hfuel ⊢; omega)
      (by omega)]
    simp

/-- First-page environment for the witnesses: two chained pages of decoded
ticker records, the first at the `list_tickers` path, the second behind the
cursor. -/
def pageEnvA : PagEnv Json where
  server := fun t =>
    if t = "/v3/reference/tickers" then ⟨200, "pageone"⟩
    else if t = "cursor2" then ⟨200, "pagetwo"⟩
    else ⟨404, "missing"⟩
  parse := fun b =>
    if b = "pageone" then
      some (.obj [("results", .arr [Json.num 1, Json.num 2]),
                  ("next_url", .str "cursor2")])
    else if b = "pagetwo" then some (.obj [("results", .arr [Json.num 3])])
    else none
  deserializer := some
  resultKey := "results"

/-- Witness for C1: consuming the two-page chain yields the concatenation
of both pages' records with one request per page. -/
theorem paginate_exhaustive_eval :
    demandPages pageEnvA 2 4 (some "/v3/reference/tickers") =
      ([Json.num 1, Json.num 2, Json.num 3], 2, .exhausted) :=
  paginate_exhaustive Json pageEnvA "/v3/reference/tickers"
    [Json.num 1, Json.num 2] [("cursor2", [Json.num 3])] 2 4
    ⟨rfl, rfl⟩ (by decide) (by decide)

/-- Claim C2: the page sequence is consumed lazily — before any record is
demanded no request has been issued; consuming any prefix of page one
issues exactly one request, whatever the server would answer for later
pages; and the second page is requested exactly when the demand first
exceeds page one's records. -/
theorem paginate_lazy (R : Type) (env : PagEnv R) (t : String) (fuel : Nat) :
    (demandPages env fuel 0 (some t) = ([], 0, .satisfied)) ∧
    (∀ (rs : List R) (next : Option String) (j : Nat),
       fetchPage env t = .ok (rs, next) → 1 ≤ j → j ≤ rs.length →
       demandPages env (fuel + 1) j (some t) = (rs.take j, 1, .satisfied)) ∧
    (∀ (rs rs₂ : List R) (t₂ : String) (next₂ : Option String),
       fetchPage env t = .ok (rs, some t₂) →
       fetchPage env t₂ = .ok (rs₂, next₂) → 1 ≤ rs₂.length →
       demandPages env (fuel + 2) (rs.length + 1) (some t) =
         (rs ++ rs₂.take 1, 2, .satisfied)) := by
  refine ⟨by simp [demandPages], ?_, ?_⟩
  · intro rs next j hfetch hj1 hj2
    exact demandPages_first_page env t rs next fuel j hfetch hj1 hj2
  · intro rs rs₂ t₂ next₂ h1 h2 hlen
    simp only [demandPages, h1]
    rw [if_neg (by omega)]
    have hz : rs.length + 1 - rs.length = 1 := by omega
    rw [hz, demandPages_first_page env t₂ rs₂ next₂ fuel 1 h2 le_rfl hlen]

/-- Witness for C2: demanding one record of the two-page chain issues one
request; demanding three issues two. -/
theorem paginate_lazy_eval :
    demandPages pageEnvA 1 1 (some "/v3/reference/tickers") =
      ([Json.num 1], 1, .satisfied) ∧
    demandPages pageEnvA 2 3 (some "/v3/reference/tickers") =
      ([Json.num 1, Json.num 2, Json.num 3], 2, .satisfied) :=
  ⟨(paginate_lazy Json pageEnvA "/v3/reference/tickers" 0).2.1
     [Json.num 1, Json.num 2] (some "cursor2") 1 rfl (by decide) (by decide),
   (paginate_lazy Json pageEnvA "/v3/reference/tickers" 0).2.2
     [Json.num 1, Json.num 2] [Json.num 3] "cursor2" none rfl rfl (by decide)⟩

/-- Claim C9: a request answered with a non-success status fails with an
HTTPError carrying the status code and body, surfaced at the triggering
call; for a paginated listing with a failing second page, the records of
page one are still handed out for any demand within page one — with no
failure surfaced — and the failure is raised exactly when the consumer
advances past the failing page, after page one's records. -/
theorem http_error_surfacing (R : Type) :
    (∀ (parse : String → Option Json) (d : Json → Option R) (key : String)
       (raw : Bool) (resp : HTTPResponse), resp.status ≠ 200 →
       executeGet parse d key raw resp =
         .failure (.httpError resp.status resp.body)) ∧
    (∀ (env : PagEnv R) (t₁ t₂ : String) (rs₁ : List R) (st : Nat)
       (b : String) (fuel : Nat),
       fetchPage env t₁ = .ok (rs₁, some t₂) → env.server t₂ = ⟨st, b⟩ →
       st ≠ 200 →
       ((∀ j, 1 ≤ j → j ≤ rs₁.length →
           demandPages env (fuel + 1) j (some t₁) =
             (rs₁.take j, 1, .satisfied)) ∧
        demandPages env (fuel + 2) (rs₁.length + 1) (some t₁) =
          (rs₁, 2, .failed (.httpError st b)))) := by
  constructor
  · intro parse d key raw resp h
    simp [executeGet, h]
  · intro env t₁ t₂ rs₁ st b fuel h1 hs hst
    have herr : fetchPage env t₂ = .error (.httpError st b) := by
      simp [fetchPage, hs, hst]
    constructor
    · intro j hj1 hj2
      exact demandPages_first_page env t₁ rs₁ (some t₂) fuel j h1 hj1 hj2
    · simp only [demandPages, h1]
      rw [if_neg (by omega)]
      have hz : rs₁.length + 1 - rs₁.length = 1 := by omega
      rw [hz, demandPages_fail env t₂ (.httpError st b) fuel 1 herr le_rfl]
      simp

/-- Environment for the C9 witness: a good first page at the
`list_conditions` path whose cursor leads to a server error. -/
def pageEnvB : PagEnv Json where
  server := fun t =>
    if t = "/v3/reference/conditions" then ⟨200, "condpage"⟩
    else ⟨500, "server error"⟩
  parse := fun b =>
    if b = "condpage" then
      some (.obj [("results", .arr [Json.num 7]), ("next_url", .str "cursorX")])
    else none
  deserializer := some
  resultKey := "results"

/-- Witness for C9: the non-success single request fails with its status and
body, and the paginated chain hands out page one before failing on page
two. -/
theorem http_error_surfacing_eval :
    executeGet (fun _ => none) (some : Json → Option Json) "results" false
      ⟨404, "not found"⟩ = .failure (.httpError 404 "not found") ∧
    demandPages pageEnvB 2 2 (some "/v3/reference/conditions") =
      ([Json.num 7], 2, .failed (.httpError 500 "server error")) :=
  ⟨(http_error_surfacing Json).1 (fun _ => none) some "results" false
     ⟨404, "not found"⟩ (by decide),
   ((http_error_surfacing Json).2 pageEnvB "/v3/reference/conditions"
     "cursorX" [Json.num 7] 500 "server error" 0 rfl rfl (by decide)).2⟩
